import Mathlib

/-!
Shallow embedding of the Artela EVM keeper's transaction pipeline
(`ApplyTransaction`, `ApplyMessageWithConfig`, `GetHashFn`) and the
`EthSigVerificationDecorator.AnteHandle` ante stage, together with proofs of
the specification's claims about them.

External collaborators (go-ethereum's EVM, `LogsBloom`, `crypto.CreateAddress`,
cometbft header decoding, the staking historical-info store, signature
recovery) are modelled as oracle parameters: the theorems hold for every
behaviour of those collaborators, which is exactly the code's situation.
-/

namespace Artela

/-! ## Ledger: the account state visible to the EVM (address → nonce) -/

abbrev Ledger := List (Nat × Nat)

def ledgerGet (l : Ledger) (a : Nat) : Nat :=
  match l with
  | [] => 0
  | (k, v) :: rest => if k = a then v else ledgerGet rest a

def ledgerSet (l : Ledger) (a v : Nat) : Ledger :=
  match l with
  | [] => [(a, v)]
  | (k, w) :: rest => if k = a then (k, v) :: rest else (k, w) :: ledgerSet rest a v

theorem ledgerGet_ledgerSet_self (l : Ledger) (a v : Nat) :
    ledgerGet (ledgerSet l a v) a = v := by
  induction l with
  | nil => simp [ledgerSet, ledgerGet]
  | cons hd tl ih =>
    obtain ⟨k, w⟩ := hd
    by_cases hk : k = a
    · simp [ledgerSet, ledgerGet, hk]
    · simp [ledgerSet, ledgerGet, hk, ih]

/-! ## StateDB: the states.StateDB view used during one message execution -/

structure StateDB where
  accounts : Ledger
  logs : List Nat
  refund : Nat
deriving DecidableEq

def StateDB.ofLedger (l : Ledger) : StateDB :=
  { accounts := l, logs := [], refund := 0 }

def StateDB.setNonce (db : StateDB) (a n : Nat) : StateDB :=
  { db with accounts := ledgerSet db.accounts a n }

def StateDB.getNonce (db : StateDB) (a : Nat) : Nat :=
  ledgerGet db.accounts a

/-! ## Message, VM oracle, configuration -/

/-- core.Message fields used by `ApplyMessageWithConfig`. -/
structure Msg where
  From : Nat
  To : Option Nat
  Nonce : Nat
  GasLimit : Nat
  Value : Nat
  Data : List Nat
deriving DecidableEq

/-- Outcome of one `evm.Create`/`evm.Call` invocation: return bytes, leftover
gas, VM error (reverts etc.), and the StateDB as the VM left it. -/
structure VMOut where
  ret : List Nat
  leftoverGas : Nat
  vmErr : Option String
  db : StateDB
deriving DecidableEq

/-- The go-ethereum EVM as an oracle: given the StateDB it is handed and the
gas available after intrinsic deduction, produce an outcome. -/
structure VMOracle where
  create : StateDB → Nat → VMOut
  call : StateDB → Nat → VMOut

/-- Governance parameters read by the executor. -/
structure EvmParams where
  enableCreate : Bool
  enableCall : Bool
deriving DecidableEq

/-- states.EVMConfig as far as the executor consults it: governance params and
whether the London fork is active at the current block number. -/
structure EVMConfig where
  params : EvmParams
  isLondon : Bool
deriving DecidableEq

/-! ## cosmos.Dec fixed-point arithmetic (18 decimal places) -/

def decScale : Nat := 10 ^ 18

/-- cosmos.NewDec on a non-negative integer: internal representation. -/
def newDec (n : Nat) : Nat := n * decScale

/-- cosmos LegacyDec chopPrecisionAndRound on a non-negative product:
divide by the scale, round to nearest, ties to even. -/
def chopPrecisionAndRound (x : Nat) : Nat :=
  if x % decScale = 0 then x / decScale
  else if x % decScale * 2 < decScale then x / decScale
  else if decScale < x % decScale * 2 then x / decScale + 1
  else if x / decScale % 2 = 0 then x / decScale else x / decScale + 1

/-- cosmos.Dec multiplication of internal representations. -/
def mulDec (a b : Nat) : Nat := chopPrecisionAndRound (a * b)

/-- cosmos.Dec TruncateInt of an internal representation (non-negative). -/
def truncateInt (x : Nat) : Nat := x / decScale

/-- cosmos.MaxDec. -/
def maxDec (a b : Nat) : Nat := max a b

/-! ## Gas accounting helpers -/

/-- go-ethereum params.RefundQuotient (pre-London divisor). -/
def RefundQuotient : Nat := 2

/-- go-ethereum params.RefundQuotientEIP3529 (post-London divisor). -/
def RefundQuotientEIP3529 : Nat := 5

/-- Quotient selection exactly as in `ApplyMessageWithConfig`: the EIP-3529
divisor when London is active, the legacy divisor otherwise. -/
def refundQuotientFor (isLondon : Bool) : Nat :=
  if isLondon then RefundQuotientEIP3529 else RefundQuotient

/-- Modelled from the spec: `GasToRefund` (called by `ApplyMessageWithConfig`
but defined in a keeper file outside src/) — "CapRefund(rawRefundCounter,
gasUsedBeforeRefund, quotient) → min(rawRefundCounter, gasUsedBeforeRefund /
quotient)". -/
def GasToRefund (availableRefund gasConsumed refundQuotient : Nat) : Nat :=
  if gasConsumed / refundQuotient > availableRefund then availableRefund
  else gasConsumed / refundQuotient

/-- The refund step of `ApplyMessageWithConfig` (lines 350–367): compute
`temporaryGasUsed = gasLimit - leftoverGas`, cap the refund counter, add the
refund back to leftover gas and subtract it from gas used. Returns
(new leftover gas, new temporary gas used). -/
def applyRefund (rawRefund gasLimit leftoverGas : Nat) (isLondon : Bool) : Nat × Nat :=
  (leftoverGas + GasToRefund rawRefund (gasLimit - leftoverGas) (refundQuotientFor isLondon),
   gasLimit - leftoverGas - GasToRefund rawRefund (gasLimit - leftoverGas) (refundQuotientFor isLondon))

/-- `minimumGasUsed = NewDec(gasLimit).Mul(minGasMultiplier)` (internal Dec). -/
def minimumGasUsedOf (gasLimit minGasMultiplier : Nat) : Nat :=
  mulDec (newDec gasLimit) minGasMultiplier

/-- `gasUsed = MaxDec(minimumGasUsed, NewDec(temporaryGasUsed)).TruncateInt()`
(line 393). -/
def finalGasUsed (gasLimit minGasMultiplier temporaryGasUsed : Nat) : Nat :=
  truncateInt (maxDec (minimumGasUsedOf gasLimit minGasMultiplier) (newDec temporaryGasUsed))

/-- `leftoverGas = msg.GasLimit - gasUsed` (line 395, recomputed for tracers). -/
def leftoverAfterMinimum (gasLimit minGasMultiplier temporaryGasUsed : Nat) : Nat :=
  gasLimit - finalGasUsed gasLimit minGasMultiplier temporaryGasUsed

/-! ## ApplyMessageWithConfig -/

inductive EvmError where
  | createDisabled
  | callDisabled
  | intrinsicGasFailed
  | intrinsicGas
  | gasOverflow
  | refundFailed
deriving DecidableEq

structure MsgEthereumTxResponse where
  gasUsed : Nat
  vmError : String
  ret : List Nat
  logs : List Nat
  hash : Nat
  cumulativeGasUsed : Nat
deriving DecidableEq

/-- The StateDB handed to `evm.Create`: the fresh StateDB over the ledger with
the sender's nonce reset to the message nonce (line 343). -/
def stateAtCreate (ledger : Ledger) (msg : Msg) : StateDB :=
  StateDB.setNonce (StateDB.ofLedger ledger) msg.From msg.Nonce

/-- The VM invocation of lines 339–348: create-or-call on the prepared state. -/
def vmOutcome (ledger : Ledger) (msg : Msg) (vm : VMOracle) (gasAfterIntrinsic : Nat) : VMOut :=
  if msg.To = none then vm.create (stateAtCreate ledger msg) gasAfterIntrinsic
  else vm.call (StateDB.ofLedger ledger) gasAfterIntrinsic

/-- The StateDB after the VM returned: for creation the sender's nonce is
forced to `msg.Nonce + 1` no matter the result (line 345). -/
def finalStateDB (msg : Msg) (out : VMOut) : StateDB :=
  if msg.To = none then StateDB.setNonce out.db msg.From (msg.Nonce + 1) else out.db

def vmErrorString (e : Option String) : String :=
  match e with
  | some s => s
  | none => ""

/-- The response built at lines 397–403 from a VM outcome. -/
def mkResponse (msg : Msg) (minGasMultiplier txHash : Nat) (isLondon : Bool)
    (out : VMOut) : MsgEthereumTxResponse :=
  { gasUsed := finalGasUsed msg.GasLimit minGasMultiplier
      (applyRefund (finalStateDB msg out).refund msg.GasLimit out.leftoverGas isLondon).2,
    vmError := vmErrorString out.vmErr,
    ret := out.ret,
    logs := (finalStateDB msg out).logs,
    hash := txHash,
    cumulativeGasUsed := 0 }

/-- Lines 350–403 of `ApplyMessageWithConfig`: overflow guards, refund,
commit-or-discard of the StateDB, minimum gas charge, response. -/
def applyMessageCore (ledger : Ledger) (msg : Msg) (commit : Bool)
    (minGasMultiplier txHash : Nat) (isLondon : Bool) (out : VMOut) :
    Except EvmError (MsgEthereumTxResponse × Ledger) :=
  if msg.GasLimit < out.leftoverGas then .error .gasOverflow
  else if msg.GasLimit <
      (applyRefund (finalStateDB msg out).refund msg.GasLimit out.leftoverGas isLondon).1 then
    .error .gasOverflow
  else
    .ok (mkResponse msg minGasMultiplier txHash isLondon out,
         if commit then (finalStateDB msg out).accounts else ledger)

/-- `ApplyMessageWithConfig` (lines 283–404). The intrinsic-gas computation
(`GetEthIntrinsicGas`, external) is passed as an `Except` input; the VM is an
oracle. When `commit` is true the final StateDB is committed into the returned
ledger, otherwise the input ledger is returned untouched. -/
def applyMessageWithConfig (ledger : Ledger) (msg : Msg) (vm : VMOracle) (commit : Bool)
    (cfg : EVMConfig) (minGasMultiplier txHash : Nat) (intrinsicGas : Except Unit Nat) :
    Except EvmError (MsgEthereumTxResponse × Ledger) :=
  if cfg.params.enableCreate = false ∧ msg.To = none then .error .createDisabled
  else if cfg.params.enableCall = false ∧ msg.To ≠ none then .error .callDisabled
  else
    match intrinsicGas with
    | .error _ => .error .intrinsicGasFailed
    | .ok ig =>
      if msg.GasLimit < ig then .error .intrinsicGas
      else
        applyMessageCore ledger msg commit minGasMultiplier txHash cfg.isLondon
          (vmOutcome ledger msg vm (msg.GasLimit - ig))

/-! ## ApplyTransaction -/

/-- The consensus block gas meter (limit, consumed so far by the block). -/
structure GasMeter where
  limit : Nat
  consumed : Nat
deriving DecidableEq

/-- states.TxConfig fields consumed by `ApplyTransaction`. -/
structure TxConfig where
  txHash : Nat
  txIndex : Nat
  logIndex : Nat
deriving DecidableEq

/-- The cosmos context as `ApplyTransaction` observes and mutates it: the EVM
ledger, the event stream, the transient per-block stores, the tx gas meter and
the optional block gas meter. -/
structure Ctx where
  ledger : Ledger
  events : List Nat
  bloomTransient : Nat
  logSizeTransient : Nat
  txIndexTransient : Nat
  transientGasUsed : Nat
  gasMeterConsumed : Nat
  blockGasMeter : Option GasMeter
deriving DecidableEq

structure Receipt where
  status : Nat
  bloom : Nat
  logs : List Nat
  cumulativeGasUsed : Nat
  gasUsed : Nat
  contractAddress : Option Nat
  txHash : Nat
  txIndex : Nat
deriving DecidableEq

/-- Lines 173–180: cumulative gas = this transaction's gas plus the block gas
meter's running total, capped at the block gas limit; no meter means the raw
gas used. -/
def cumulativeGas (gasUsed : Nat) (meter : Option GasMeter) : Nat :=
  match meter with
  | none => gasUsed
  | some gm => if gasUsed + gm.consumed > gm.limit then gm.limit else gasUsed + gm.consumed

/-- Lines 166–171: the receipt bloom is the accumulated transient block bloom
OR-ed with this transaction's own log bloom when there are logs, and the zero
bloom otherwise. `logsBloom` is the external `ethereum.LogsBloom` oracle. -/
def bloomFor (ctx : Ctx) (logsBloom : List Nat → Nat) (logs : List Nat) : Nat :=
  if logs.length > 0 then Nat.lor ctx.bloomTransient (logsBloom logs) else 0

/-- The receipt assembled at lines 183–209. `crypto.CreateAddress` is modelled
by the deterministic pairing `Nat.pair sender nonce`. Status is successful (1)
iff the VM reported no error; the field otherwise keeps its zero value. -/
def mkReceipt (ctx : Ctx) (msg : Msg) (txConfig : TxConfig)
    (logsBloom : List Nat → Nat) (res : MsgEthereumTxResponse) : Receipt :=
  { status := if res.vmError ≠ "" then 0 else 1,
    bloom := bloomFor ctx logsBloom res.logs,
    logs := res.logs,
    cumulativeGasUsed := cumulativeGas res.gasUsed ctx.blockGasMeter,
    gasUsed := res.gasUsed,
    contractAddress := if msg.To = none then some (Nat.pair msg.From msg.Nonce) else none,
    txHash := txConfig.txHash,
    txIndex := txConfig.txIndex }

/-- The context as `ApplyTransaction` leaves it (lines 202–230): the cached
execution ledger is committed and events propagated only when the VM reported
no error; bloom and log-index transients are touched only when the log list is
non-empty; the tx-index transient always advances; the transaction's gas is
added to the block's transient total and the tx gas meter is reset to it. -/
def postCtx (ctx : Ctx) (txConfig : TxConfig) (logsBloom : List Nat → Nat)
    (execLedger : Ledger) (res : MsgEthereumTxResponse) : Ctx :=
  { ledger := if res.vmError ≠ "" then ctx.ledger else execLedger,
    events := if res.vmError ≠ "" then ctx.events else ctx.events ++ res.logs,
    bloomTransient := if res.logs.length > 0 then bloomFor ctx logsBloom res.logs
      else ctx.bloomTransient,
    logSizeTransient := if res.logs.length > 0 then txConfig.logIndex + res.logs.length
      else ctx.logSizeTransient,
    txIndexTransient := txConfig.txIndex + 1,
    transientGasUsed := ctx.transientGasUsed + res.gasUsed,
    gasMeterConsumed := ctx.transientGasUsed + res.gasUsed,
    blockGasMeter := ctx.blockGasMeter }

/-- `ApplyTransaction` (lines 131–232): run the message on a cached copy of the
context with commit = true, then decide commit vs. discard of the cache from
the VM error, refund leftover gas (`refundOk` models the external `RefundGas`
fee credit), and update the transient block state. -/
def applyTransaction (ctx : Ctx) (msg : Msg) (vm : VMOracle) (cfg : EVMConfig)
    (minGasMultiplier : Nat) (txConfig : TxConfig) (intrinsicGas : Except Unit Nat)
    (logsBloom : List Nat → Nat) (refundOk : Bool) :
    Except EvmError (MsgEthereumTxResponse × Receipt × Ctx) :=
  match applyMessageWithConfig ctx.ledger msg vm true cfg minGasMultiplier
      txConfig.txHash intrinsicGas with
  | .error e => .error e
  | .ok (res0, execLedger) =>
    if refundOk = false then .error .refundFailed
    else
      .ok ({ res0 with cumulativeGasUsed := cumulativeGas res0.gasUsed ctx.blockGasMeter },
           mkReceipt ctx msg txConfig logsBloom res0,
           postCtx ctx txConfig logsBloom execLedger res0)

/-! ## GetHashFn -/

def maxInt64 : Nat := 2 ^ 63 - 1

/-- artela.SafeInt64: cast a uint64 height, failing above math.MaxInt64. -/
def SafeInt64 (value : Nat) : Option Int :=
  if value ≤ maxInt64 then some (value : Int) else none

/-- Big-endian value of a byte slice (each byte reduced mod 256). -/
def bytesToNat (bs : List Nat) : Nat :=
  bs.foldl (fun acc b => acc * 256 + b % 256) 0

/-- common.BytesToHash: keep the last 32 bytes, left-padded with zeros; as a
value this is the big-endian value of the last 32 bytes. -/
def BytesToHash (bs : List Nat) : Nat :=
  bytesToNat (bs.drop (bs.length - 32))

/-- External collaborators of `GetHashFn`: cometbft header decoding, header
hashing, and the staking keeper's historical-info store. -/
structure HeaderOracle where
  headerFromProto : Nat → Option Nat
  headerHashOf : Nat → List Nat
  getHistoricalInfo : Int → Option Nat

/-- The context fields `GetHashFn` reads: current height, the header hash set
at begin-block (empty when unset, e.g. in a query context), and the current
proto block header. -/
structure HashCtx where
  blockHeight : Int
  headerHash : List Nat
  blockHeader : Nat

/-- `GetHashFn` (lines 62–112): three temporal cases plus degradation to the
zero hash on height-conversion or header-decoding failure. -/
def GetHashFn (o : HeaderOracle) (ctx : HashCtx) (height : Nat) : Nat :=
  match SafeInt64 height with
  | none => 0
  | some h =>
    if ctx.blockHeight = h then
      if ctx.headerHash.length ≠ 0 then BytesToHash ctx.headerHash
      else
        match o.headerFromProto ctx.blockHeader with
        | none => 0
        | some hd => BytesToHash (o.headerHashOf hd)
    else if ctx.blockHeight > h then
      match o.getHistoricalInfo h with
      | none => 0
      | some ph =>
        match o.headerFromProto ph with
        | none => 0
        | some hd => BytesToHash (o.headerHashOf hd)
    else 0

/-! ## EthSigVerificationDecorator.AnteHandle -/

/-- A message in a cosmos transaction: either a MsgEthereumTx (abstracted to
its transaction payload plus its current From field) or some other type. -/
inductive SdkMsg where
  | eth (txData : Nat) (From : Option Nat)
  | other
deriving DecidableEq

inductive AnteError where
  | unknownRequest
  | sigVerificationFailed
deriving DecidableEq

/-- The cosmos context as the ante stage observes it: ledger state plus the
aspect-context value installed with WithValue. -/
structure AnteCtx where
  ledger : Ledger
  aspectContextSet : Bool
deriving DecidableEq

/-- `EthSigVerificationDecorator.AnteHandle` (sig_checker.go lines 32–57).
`verifySig` is the keeper's `VerifySig` oracle (sender recovery under the
configured chain id). `isRecheckTx` is threaded but — exactly as in the code,
which has no recheck guard — never consulted. On success the recovered sender
is written to each message's From field and the (ctx, messages) pair flows to
the next handler; on failure an error is returned with the context, whose
ledger is untouched. -/
def anteHandle (verifySig : Nat → Except Unit Nat) (isRecheckTx : Bool) :
    AnteCtx → List SdkMsg → Except (AnteError × AnteCtx) (AnteCtx × List SdkMsg)
  | ctx, [] => .ok (ctx, [])
  | ctx, SdkMsg.other :: _ => .error (.unknownRequest, ctx)
  | ctx, SdkMsg.eth t _ :: rest =>
    match verifySig t with
    | .error _ => .error (.sigVerificationFailed, { ctx with aspectContextSet := true })
    | .ok sender =>
      match anteHandle verifySig isRecheckTx { ctx with aspectContextSet := true } rest with
      | .error e => .error e
      | .ok (ctx2, rest2) => .ok (ctx2, SdkMsg.eth t (some sender) :: rest2)

/-- A message the signature stage accepts: an execution-layer message whose
sender recovery succeeds. -/
def msgAcceptable (verifySig : Nat → Except Unit Nat) : SdkMsg → Bool
  | SdkMsg.eth t _ => (verifySig t).isOk
  | SdkMsg.other => false

/-! ## Inversion lemmas -/

/-- Any successful run of `applyMessageWithConfig` arose from a successful
intrinsic-gas computation, and its response and output ledger are the ones
built from the VM outcome. -/
theorem applyMessage_ok_inv {ledger : Ledger} {msg : Msg} {vm : VMOracle} {commit : Bool}
    {cfg : EVMConfig} {minGasMultiplier txHash : Nat} {intrinsicGas : Except Unit Nat}
    {res : MsgEthereumTxResponse} {l' : Ledger}
    (h : applyMessageWithConfig ledger msg vm commit cfg minGasMultiplier txHash intrinsicGas
      = .ok (res, l')) :
    ∃ igv, intrinsicGas = .ok igv ∧
      res = mkResponse msg minGasMultiplier txHash cfg.isLondon
        (vmOutcome ledger msg vm (msg.GasLimit - igv)) ∧
      l' = (if commit then
        (finalStateDB msg (vmOutcome ledger msg vm (msg.GasLimit - igv))).accounts
        else ledger) := by
  unfold applyMessageWithConfig at h
  split at h
  · exact Except.noConfusion h
  · split at h
    · exact Except.noConfusion h
    · split at h
      · exact Except.noConfusion h
      · next _ igv =>
        split at h
        · exact Except.noConfusion h
        · unfold applyMessageCore at h
          split at h
          · exact Except.noConfusion h
          · split at h
            · exact Except.noConfusion h
            · injection h with h2
              injection h2 with hr hl
              exact ⟨igv, rfl, hr.symm, hl.symm⟩

/-- Any successful run of `applyTransaction` arose from a successful message
execution and a successful gas refund, and its components are the ones built
from that execution. -/
theorem applyTransaction_ok_inv {ctx : Ctx} {msg : Msg} {vm : VMOracle} {cfg : EVMConfig}
    {minGasMultiplier : Nat} {txConfig : TxConfig} {intrinsicGas : Except Unit Nat}
    {logsBloom : List Nat → Nat} {refundOk : Bool}
    {res : MsgEthereumTxResponse} {rcpt : Receipt} {ctx' : Ctx}
    (h : applyTransaction ctx msg vm cfg minGasMultiplier txConfig intrinsicGas
      logsBloom refundOk = .ok (res, rcpt, ctx')) :
    ∃ res0 execLedger,
      applyMessageWithConfig ctx.ledger msg vm true cfg minGasMultiplier
        txConfig.txHash intrinsicGas = .ok (res0, execLedger) ∧
      refundOk = true ∧
      res = { res0 with cumulativeGasUsed := cumulativeGas res0.gasUsed ctx.blockGasMeter } ∧
      rcpt = mkReceipt ctx msg txConfig logsBloom res0 ∧
      ctx' = postCtx ctx txConfig logsBloom execLedger res0 := by
  unfold applyTransaction at h
  split at h
  · exact Except.noConfusion h
  · next res0 execLedger heq =>
    split at h
    · exact Except.noConfusion h
    · next hro =>
      injection h with h2
      injection h2 with hr h3
      injection h3 with hrc hcx
      exact ⟨res0, execLedger, heq, by simpa using hro, hr.symm, hrc.symm, hcx.symm⟩

/-! ## Arithmetic helper lemmas -/

theorem decScale_pos : 0 < decScale := by
  norm_num [decScale]

theorem truncateInt_newDec (n : Nat) : truncateInt (newDec n) = n := by
  unfold truncateInt newDec
  exact Nat.mul_div_cancel n decScale_pos

theorem GasToRefund_eq_min (availableRefund gasConsumed refundQuotient : Nat) :
    GasToRefund availableRefund gasConsumed refundQuotient
      = min availableRefund (gasConsumed / refundQuotient) := by
  unfold GasToRefund
  rw [Nat.min_def]
  split <;> split <;> omega

/-! ## Claim theorems: MessageExecutor -/

/-- Claim C8: when governance disables contract creation, every creation
message (no recipient) is rejected by `applyMessageWithConfig` with
`CreateDisabled`; symmetrically a call message is rejected with `CallDisabled`
when calls are disabled. The rejection is the first step of the executor, so
no StateDB is even constructed and no ledger is returned: the error output
carries no mutation. -/
theorem governance_gating_rejects
    (ledger : Ledger) (msg : Msg) (vm : VMOracle) (commit : Bool) (cfg : EVMConfig)
    (minGasMultiplier txHash : Nat) (intrinsicGas : Except Unit Nat) :
    (cfg.params.enableCreate = false → msg.To = none →
      applyMessageWithConfig ledger msg vm commit cfg minGasMultiplier txHash intrinsicGas
        = .error .createDisabled) ∧
    (cfg.params.enableCall = false → msg.To ≠ none →
      applyMessageWithConfig ledger msg vm commit cfg minGasMultiplier txHash intrinsicGas
        = .error .callDisabled) := by
  constructor
  · intro hc hTo
    unfold applyMessageWithConfig
    rw [if_pos ⟨hc, hTo⟩]
  · intro hc hTo
    unfold applyMessageWithConfig
    rw [if_neg (fun hk => hTo hk.2), if_pos ⟨hc, hTo⟩]

/-- Witness for C8 at a concrete creation message with `EnableCreate = false`. -/
theorem governance_gating_rejects_witness :
    applyMessageWithConfig [] ⟨1, none, 0, 21000, 0, []⟩
      ⟨fun db g => ⟨[], g, none, db⟩, fun db g => ⟨[], g, none, db⟩⟩ true
      ⟨⟨false, true⟩, false⟩ 0 0 (.ok 0) = .error .createDisabled :=
  (governance_gating_rejects [] ⟨1, none, 0, 21000, 0, []⟩
      ⟨fun db g => ⟨[], g, none, db⟩, fun db g => ⟨[], g, none, db⟩⟩ true
      ⟨⟨false, true⟩, false⟩ 0 0 (.ok 0)).1 rfl rfl

/-- Claim C2: for a contract-creation message, the StateDB handed to
`evm.Create` has the sender's nonce reset to the message nonce, and in the
committed ledger of any successful execution the sender's nonce is
`msg.Nonce + 1` — regardless of the VM outcome, success or revert, because the
oracle `vm` is arbitrary here. -/
theorem creation_nonce_invariant
    (ledger : Ledger) (msg : Msg) (vm : VMOracle) (cfg : EVMConfig)
    (minGasMultiplier txHash : Nat) (intrinsicGas : Except Unit Nat)
    (res : MsgEthereumTxResponse) (l' : Ledger)
    (hTo : msg.To = none)
    (h : applyMessageWithConfig ledger msg vm true cfg minGasMultiplier txHash intrinsicGas
      = .ok (res, l')) :
    StateDB.getNonce (stateAtCreate ledger msg) msg.From = msg.Nonce ∧
    (∀ g, vmOutcome ledger msg vm g = vm.create (stateAtCreate ledger msg) g) ∧
    ledgerGet l' msg.From = msg.Nonce + 1 := by
  refine ⟨?_, ?_, ?_⟩
  · simp [StateDB.getNonce, stateAtCreate, StateDB.setNonce, StateDB.ofLedger,
      ledgerGet_ledgerSet_self]
  · intro g
    simp [vmOutcome, hTo]
  · obtain ⟨igv, _, _, hl⟩ := applyMessage_ok_inv h
    subst hl
    simp [finalStateDB, hTo, StateDB.setNonce, ledgerGet_ledgerSet_self]

/-- Claim C3: the refund applied by the executor's refund step equals
`min(rawRefundCounter, gasUsedBeforeRefund / quotient)`, never exceeds
`gasUsedBeforeRefund / quotient`, is added back to leftover gas and subtracted
from gas used; and the quotient is the EIP-3529 divisor exactly when London is
active, the legacy divisor otherwise. -/
theorem refund_cap_invariant (rawRefund gasLimit leftoverGas : Nat) (isLondon : Bool) :
    (applyRefund rawRefund gasLimit leftoverGas isLondon).1
      = leftoverGas + min rawRefund ((gasLimit - leftoverGas) / refundQuotientFor isLondon) ∧
    (applyRefund rawRefund gasLimit leftoverGas isLondon).2
      = gasLimit - leftoverGas
        - min rawRefund ((gasLimit - leftoverGas) / refundQuotientFor isLondon) ∧
    gasLimit - leftoverGas - (applyRefund rawRefund gasLimit leftoverGas isLondon).2
      = min rawRefund ((gasLimit - leftoverGas) / refundQuotientFor isLondon) ∧
    gasLimit - leftoverGas - (applyRefund rawRefund gasLimit leftoverGas isLondon).2
      ≤ (gasLimit - leftoverGas) / refundQuotientFor isLondon ∧
    refundQuotientFor true = RefundQuotientEIP3529 ∧
    refundQuotientFor false = RefundQuotient := by
  have hmin := GasToRefund_eq_min rawRefund (gasLimit - leftoverGas) (refundQuotientFor isLondon)
  have hdiv := Nat.div_le_self (gasLimit - leftoverGas) (refundQuotientFor isLondon)
  unfold applyRefund
  rw [hmin]
  refine ⟨rfl, rfl, by omega, by omega, rfl, rfl⟩

/-- Claim C4: the final gas used is
`MaxDec(gasLimit · minGasMultiplier, Dec(actual)).TruncateInt()`; it is at
least the truncated minimum floor; it equals the refund-adjusted actual gas
used whenever that reaches the floor; the tracer-facing leftover gas is the
gas limit minus it; and every successful `applyMessageWithConfig` reports
exactly this value for the refund-adjusted gas of its VM outcome. -/
theorem minimum_gas_invariant
    (gasLimit minGasMultiplier actual : Nat) :
    finalGasUsed gasLimit minGasMultiplier actual
      = truncateInt (maxDec (minimumGasUsedOf gasLimit minGasMultiplier) (newDec actual)) ∧
    truncateInt (minimumGasUsedOf gasLimit minGasMultiplier)
      ≤ finalGasUsed gasLimit minGasMultiplier actual ∧
    (minimumGasUsedOf gasLimit minGasMultiplier ≤ newDec actual →
      finalGasUsed gasLimit minGasMultiplier actual = actual) ∧
    leftoverAfterMinimum gasLimit minGasMultiplier actual
      = gasLimit - finalGasUsed gasLimit minGasMultiplier actual ∧
    (∀ (ledger : Ledger) (msg : Msg) (vm : VMOracle) (commit : Bool) (cfg : EVMConfig)
        (txHash : Nat) (intrinsicGas : Except Unit Nat)
        (res : MsgEthereumTxResponse) (l' : Ledger),
      applyMessageWithConfig ledger msg vm commit cfg minGasMultiplier txHash intrinsicGas
        = .ok (res, l') →
      ∃ igv, intrinsicGas = .ok igv ∧
        res.gasUsed = finalGasUsed msg.GasLimit minGasMultiplier
          (applyRefund
            (finalStateDB msg (vmOutcome ledger msg vm (msg.GasLimit - igv))).refund
            msg.GasLimit
            (vmOutcome ledger msg vm (msg.GasLimit - igv)).leftoverGas
            cfg.isLondon).2) := by
  refine ⟨rfl, ?_, ?_, rfl, ?_⟩
  · exact Nat.div_le_div_right (le_max_left _ _)
  · intro hle
    unfold finalGasUsed maxDec
    rw [max_eq_right hle, truncateInt_newDec]
  · intro ledger msg vm commit cfg txHash intrinsicGas res l' h
    obtain ⟨igv, hig, hres, _⟩ := applyMessage_ok_inv h
    exact ⟨igv, hig, by rw [hres]; rfl⟩

/-! ## Claim theorems: TransactionApplier -/

/-- Claim C1: whenever `applyTransaction` returns a response without a
pipeline error, either the VM reported no error and the snapshot's ledger is
committed wholesale into the parent context, or the VM reported an error and
the parent ledger is exactly the original one (the snapshot is discarded in
full); in both cases the transaction is processed — its gas still lands in the
block's transient total and the reset gas meter. -/
theorem tx_atomic_commit_or_discard
    (ctx : Ctx) (msg : Msg) (vm : VMOracle) (cfg : EVMConfig) (minGasMultiplier : Nat)
    (txConfig : TxConfig) (intrinsicGas : Except Unit Nat) (logsBloom : List Nat → Nat)
    (refundOk : Bool) (res : MsgEthereumTxResponse) (rcpt : Receipt) (ctx' : Ctx)
    (h : applyTransaction ctx msg vm cfg minGasMultiplier txConfig intrinsicGas
      logsBloom refundOk = .ok (res, rcpt, ctx')) :
    (∀ res0 execLedger,
      applyMessageWithConfig ctx.ledger msg vm true cfg minGasMultiplier
          txConfig.txHash intrinsicGas = .ok (res0, execLedger) →
      (res.vmError = "" → ctx'.ledger = execLedger) ∧
      (res.vmError ≠ "" → ctx'.ledger = ctx.ledger)) ∧
    ctx'.transientGasUsed = ctx.transientGasUsed + res.gasUsed ∧
    ctx'.gasMeterConsumed = ctx.transientGasUsed + res.gasUsed := by
  obtain ⟨res0, execLedger, heq, _, hres, _, hctx⟩ := applyTransaction_ok_inv h
  have hvm : res.vmError = res0.vmError := by rw [hres]
  have hgas : res.gasUsed = res0.gasUsed := by rw [hres]
  refine ⟨?_, ?_, ?_⟩
  · intro res1 execLedger1 h1
    rw [heq] at h1
    injection h1 with h2
    injection h2 with hr hl
    subst hr hl
    constructor
    · intro hok
      rw [hctx]
      simp [postCtx, hvm ▸ hok]
    · intro hfail
      rw [hctx]
      simp [postCtx, hvm ▸ hfail]
  · rw [hctx, hgas]
    rfl
  · rw [hctx, hgas]
    rfl

/-- Claim C6: the cumulative gas recorded after a transaction (running block
total plus this transaction's gas) is capped at the block gas limit; it is
non-decreasing across successive transactions (whose running total includes
the previous transaction's gas); and both the response and the receipt of
every successful `applyTransaction` record exactly this value. -/
theorem cumulative_gas_invariant
    (limit consumed gas consumed' gas' : Nat) :
    cumulativeGas gas (some ⟨limit, consumed⟩) ≤ limit ∧
    (consumed + gas ≤ consumed' →
      cumulativeGas gas (some ⟨limit, consumed⟩)
        ≤ cumulativeGas gas' (some ⟨limit, consumed'⟩)) ∧
    (∀ (ctx : Ctx) (msg : Msg) (vm : VMOracle) (cfg : EVMConfig) (minGasMultiplier : Nat)
        (txConfig : TxConfig) (intrinsicGas : Except Unit Nat) (logsBloom : List Nat → Nat)
        (refundOk : Bool) (res : MsgEthereumTxResponse) (rcpt : Receipt) (ctx' : Ctx),
      applyTransaction ctx msg vm cfg minGasMultiplier txConfig intrinsicGas
        logsBloom refundOk = .ok (res, rcpt, ctx') →
      res.cumulativeGasUsed = cumulativeGas res.gasUsed ctx.blockGasMeter ∧
      rcpt.cumulativeGasUsed = cumulativeGas res.gasUsed ctx.blockGasMeter) := by
  refine ⟨?_, ?_, ?_⟩
  · simp only [cumulativeGas]
    split <;> omega
  · intro hle
    simp only [cumulativeGas]
    split <;> split <;> omega
  · intro ctx msg vm cfg minGasMultiplier txConfig intrinsicGas logsBloom refundOk
      res rcpt ctx' h
    obtain ⟨res0, execLedger, _, _, hres, hrcpt, _⟩ := applyTransaction_ok_inv h
    have hgas : res.gasUsed = res0.gasUsed := by rw [hres]
    constructor
    · rw [hres]
    · rw [hrcpt, hgas]
      rfl

/-- Claim C9: after a successful `applyTransaction` with an empty log list the
transient bloom and log-index stores are untouched, while the transaction
index still advances to `txIndex + 1` and the transaction's gas is added to
the block's transient total and written into the reset gas meter; with a
non-empty log list the bloom and log-index transients are updated as well. -/
theorem transient_state_frame
    (ctx : Ctx) (msg : Msg) (vm : VMOracle) (cfg : EVMConfig) (minGasMultiplier : Nat)
    (txConfig : TxConfig) (intrinsicGas : Except Unit Nat) (logsBloom : List Nat → Nat)
    (refundOk : Bool) (res : MsgEthereumTxResponse) (rcpt : Receipt) (ctx' : Ctx)
    (h : applyTransaction ctx msg vm cfg minGasMultiplier txConfig intrinsicGas
      logsBloom refundOk = .ok (res, rcpt, ctx')) :
    (res.logs = [] →
      ctx'.bloomTransient = ctx.bloomTransient ∧
      ctx'.logSizeTransient = ctx.logSizeTransient) ∧
    ctx'.txIndexTransient = txConfig.txIndex + 1 ∧
    ctx'.transientGasUsed = ctx.transientGasUsed + res.gasUsed ∧
    ctx'.gasMeterConsumed = ctx.transientGasUsed + res.gasUsed ∧
    (res.logs ≠ [] →
      ctx'.bloomTransient = Nat.lor ctx.bloomTransient (logsBloom res.logs) ∧
      ctx'.logSizeTransient = txConfig.logIndex + res.logs.length) := by
  obtain ⟨res0, execLedger, _, _, hres, _, hctx⟩ := applyTransaction_ok_inv h
  have hlogs : res.logs = res0.logs := by rw [hres]
  have hgas : res.gasUsed = res0.gasUsed := by rw [hres]
  refine ⟨?_, ?_, ?_, ?_, ?_⟩
  · intro hnil
    rw [hlogs] at hnil
    rw [hctx]
    simp [postCtx, hnil]
  · rw [hctx]
    rfl
  · rw [hctx, hgas]
    rfl
  · rw [hctx, hgas]
    rfl
  · intro hne
    rw [hlogs] at hne
    have hlen : res0.logs.length > 0 := List.length_pos.mpr hne
    rw [hctx, hlogs]
    simp [postCtx, bloomFor, hlen]

/-- Claim C10: the Bloom stored in the receipt of a successful
`applyTransaction` is the block's accumulated transient bloom OR-ed with this
transaction's own log bloom when the log list is non-empty (so it includes the
logs of all prior transactions in the block), and the zero bloom when the log
list is empty. -/
theorem receipt_bloom_accumulates
    (ctx : Ctx) (msg : Msg) (vm : VMOracle) (cfg : EVMConfig) (minGasMultiplier : Nat)
    (txConfig : TxConfig) (intrinsicGas : Except Unit Nat) (logsBloom : List Nat → Nat)
    (refundOk : Bool) (res : MsgEthereumTxResponse) (rcpt : Receipt) (ctx' : Ctx)
    (h : applyTransaction ctx msg vm cfg minGasMultiplier txConfig intrinsicGas
      logsBloom refundOk = .ok (res, rcpt, ctx')) :
    rcpt.logs = res.logs ∧
    (res.logs ≠ [] → rcpt.bloom = Nat.lor ctx.bloomTransient (logsBloom res.logs)) ∧
    (res.logs = [] → rcpt.bloom = 0) := by
  obtain ⟨res0, execLedger, _, _, hres, hrcpt, _⟩ := applyTransaction_ok_inv h
  have hlogs : res.logs = res0.logs := by rw [hres]
  refine ⟨?_, ?_, ?_⟩
  · rw [hrcpt, hlogs]
    rfl
  · intro hne
    rw [hlogs] at hne
    have hlen : res0.logs.length > 0 := List.length_pos.mpr hne
    rw [hrcpt, hlogs]
    simp [mkReceipt, bloomFor, hlen]
  · intro hnil
    rw [hlogs] at hnil
    rw [hrcpt]
    simp [mkReceipt, bloomFor, hnil]

/-! ## Claim theorems: HistoricalHashResolver -/

theorem bytesToNat_foldl_pos (bs : List Nat) (acc : Nat)
    (h : 0 < acc ∨ ∃ b ∈ bs, b % 256 ≠ 0) :
    0 < bs.foldl (fun a b => a * 256 + b % 256) acc := by
  induction bs generalizing acc with
  | nil =>
    rcases h with h | ⟨b, hb, _⟩
    · simpa using h
    · exact absurd hb (List.not_mem_nil b)
  | cons x xs ih =>
    simp only [List.foldl_cons]
    apply ih
    rcases h with h | ⟨b, hb, hnz⟩
    · left
      omega
    · rcases List.mem_cons.mp hb with rfl | hmem
      · left
        omega
      · right
        exact ⟨b, hmem, hnz⟩

theorem BytesToHash_pos (bs : List Nat) (hlen : bs.length ≤ 32)
    (h : ∃ b ∈ bs, b % 256 ≠ 0) : 0 < BytesToHash bs := by
  unfold BytesToHash bytesToNat
  rw [Nat.sub_eq_zero_of_le hlen, List.drop_zero]
  exact bytesToNat_foldl_pos bs 0 (Or.inr h)

/-- Claim C5: the resolver's behaviour over all requested heights. Heights
that do not fit in an int64 give the zero hash. At the current height: the
fixed (begin-block) header hash is returned when set — non-zero whenever it is
a well-formed hash value (at most 32 bytes, some byte non-zero) — and
otherwise the hash is recomputed from the current header, decoding failure
degrading to zero. Below the current height the historical record's hash is
derived when found and the zero hash is returned without error when not.
Above the current height the zero hash is returned. The function is total:
no case aborts the caller. -/
theorem get_hash_fn_cases (o : HeaderOracle) (ctx : HashCtx) (height : Nat) :
    (maxInt64 < height → GetHashFn o ctx height = 0) ∧
    (height ≤ maxInt64 → ctx.blockHeight = (height : Int) →
      (ctx.headerHash.length ≠ 0 → GetHashFn o ctx height = BytesToHash ctx.headerHash) ∧
      (ctx.headerHash.length ≠ 0 → ctx.headerHash.length ≤ 32 →
        (∃ b ∈ ctx.headerHash, b % 256 ≠ 0) → GetHashFn o ctx height ≠ 0) ∧
      (ctx.headerHash.length = 0 →
        GetHashFn o ctx height =
          (match o.headerFromProto ctx.blockHeader with
           | none => 0
           | some hd => BytesToHash (o.headerHashOf hd)))) ∧
    (height ≤ maxInt64 → (height : Int) < ctx.blockHeight →
      (o.getHistoricalInfo (height : Int) = none → GetHashFn o ctx height = 0) ∧
      (∀ ph, o.getHistoricalInfo (height : Int) = some ph →
        GetHashFn o ctx height =
          (match o.headerFromProto ph with
           | none => 0
           | some hd => BytesToHash (o.headerHashOf hd)))) ∧
    (height ≤ maxInt64 → ctx.blockHeight < (height : Int) → GetHashFn o ctx height = 0) := by
  refine ⟨?_, ?_, ?_, ?_⟩
  · intro hgt
    unfold GetHashFn SafeInt64
    rw [if_neg (by omega)]
  · intro hle hcur
    have hbase : ctx.headerHash.length ≠ 0 →
        GetHashFn o ctx height = BytesToHash ctx.headerHash := by
      intro hh
      unfold GetHashFn SafeInt64
      rw [if_pos hle]
      simp [hcur, hh]
    refine ⟨hbase, ?_, ?_⟩
    · intro hset hlen32 hbyte
      rw [hbase hset]
      have := BytesToHash_pos ctx.headerHash hlen32 hbyte
      omega
    · intro hunset
      unfold GetHashFn SafeInt64
      rw [if_pos hle]
      simp [hcur, hunset]
  · intro hle hlt
    unfold GetHashFn SafeInt64
    rw [if_pos hle]
    simp only [if_neg (by omega : ¬ctx.blockHeight = (height : Int)), if_pos hlt]
    constructor
    · intro hnone
      simp [hnone]
    · intro ph hph
      simp [hph]
  · intro hle hlt
    unfold GetHashFn SafeInt64
    rw [if_pos hle]
    simp only [if_neg (by omega : ¬ctx.blockHeight = (height : Int))]
    rw [if_neg (by omega)]

/-- Witness for C5: a future height (current height 1, requested height 2)
resolves to the zero hash, and at the current height a fixed one-byte header
hash resolves to its value. -/
theorem get_hash_fn_cases_witness :
    GetHashFn ⟨fun _ => none, fun _ => [], fun _ => none⟩ ⟨1, [7], 3⟩ 2 = 0 ∧
    GetHashFn ⟨fun _ => none, fun _ => [], fun _ => none⟩ ⟨1, [7], 3⟩ 1
      = BytesToHash [7] :=
  ⟨(get_hash_fn_cases ⟨fun _ => none, fun _ => [], fun _ => none⟩ ⟨1, [7], 3⟩ 2).2.2.2
      (by norm_num [maxInt64]) (by norm_num),
   ((get_hash_fn_cases ⟨fun _ => none, fun _ => [], fun _ => none⟩ ⟨1, [7], 3⟩ 1).2.1
      (by norm_num [maxInt64]) (by norm_num)).1 (by norm_num)⟩

/-! ## Claim theorems: SignatureVerificationStage -/

theorem anteHandle_isOk (verifySig : Nat → Except Unit Nat) (b : Bool)
    (ctx : AnteCtx) (msgs : List SdkMsg) :
    (anteHandle verifySig b ctx msgs).isOk = msgs.all (msgAcceptable verifySig) := by
  induction msgs generalizing ctx with
  | nil => rfl
  | cons m rest ih =>
    cases m with
    | other => rfl
    | eth t f =>
      cases hv : verifySig t with
      | error e => simp [anteHandle, msgAcceptable, hv, Except.isOk, Except.toBool]
      | ok s =>
        have hRest := ih { ctx with aspectContextSet := true }
        cases hr : anteHandle verifySig b { ctx with aspectContextSet := true } rest with
        | error e2 =>
          rw [hr] at hRest
          simp only [Except.isOk, Except.toBool] at hRest
          simp [anteHandle, msgAcceptable, hv, hr, Except.isOk, Except.toBool, ← hRest]
        | ok p =>
          rw [hr] at hRest
          simp only [Except.isOk, Except.toBool] at hRest
          simp [anteHandle, msgAcceptable, hv, hr, Except.isOk, Except.toBool, ← hRest]

theorem anteHandle_ok_from_set (verifySig : Nat → Except Unit Nat) (b : Bool)
    (msgs : List SdkMsg) :
    ∀ (ctx ctx2 : AnteCtx) (msgs2 : List SdkMsg),
      anteHandle verifySig b ctx msgs = .ok (ctx2, msgs2) →
      ∀ m ∈ msgs2, ∃ t s, m = SdkMsg.eth t (some s) ∧ verifySig t = .ok s := by
  induction msgs with
  | nil =>
    intro ctx ctx2 msgs2 h m hm
    injection h with h2
    injection h2 with _ hmsgs
    rw [← hmsgs] at hm
    exact absurd hm (List.not_mem_nil m)
  | cons hd rest ih =>
    intro ctx ctx2 msgs2 h m hm
    cases hd with
    | other => exact Except.noConfusion h
    | eth t f =>
      rw [anteHandle] at h
      cases hv : verifySig t with
      | error e =>
        rw [hv] at h
        exact Except.noConfusion h
      | ok s =>
        rw [hv] at h
        cases hr : anteHandle verifySig b { ctx with aspectContextSet := true } rest with
        | error e2 =>
          rw [hr] at h
          exact Except.noConfusion h
        | ok p =>
          rw [hr] at h
          injection h with h2
          injection h2 with _ hmsgs
          rw [← hmsgs] at hm
          rcases List.mem_cons.mp hm with rfl | hmem
          · exact ⟨t, s, rfl, hv⟩
          · exact ih { ctx with aspectContextSet := true } p.1 p.2 (by rw [hr]) m hmem

theorem anteHandle_error_ledger (verifySig : Nat → Except Unit Nat) (b : Bool)
    (msgs : List SdkMsg) :
    ∀ (ctx : AnteCtx) (e : AnteError) (ctx2 : AnteCtx),
      anteHandle verifySig b ctx msgs = .error (e, ctx2) → ctx2.ledger = ctx.ledger := by
  induction msgs with
  | nil =>
    intro ctx e ctx2 h
    exact Except.noConfusion h
  | cons hd rest ih =>
    intro ctx e ctx2 h
    cases hd with
    | other =>
      rw [anteHandle] at h
      injection h with h2
      injection h2 with _ hctx
      rw [← hctx]
    | eth t f =>
      rw [anteHandle] at h
      cases hv : verifySig t with
      | error e1 =>
        rw [hv] at h
        injection h with h2
        injection h2 with _ hctx
        rw [← hctx]
      | ok s =>
        rw [hv] at h
        cases hr : anteHandle verifySig b { ctx with aspectContextSet := true } rest with
        | error e2 =>
          rw [hr] at h
          injection h with h2
          rw [h2] at hr
          exact ih { ctx with aspectContextSet := true } e ctx2 hr
        | ok p =>
          rw [hr] at h
          exact Except.noConfusion h

theorem anteHandle_recheck_independent (verifySig : Nat → Except Unit Nat) (b : Bool)
    (msgs : List SdkMsg) :
    ∀ ctx : AnteCtx, anteHandle verifySig b ctx msgs = anteHandle verifySig true ctx msgs := by
  induction msgs with
  | nil => intro ctx; rfl
  | cons hd rest ih =>
    intro ctx
    cases hd with
    | other => rfl
    | eth t f =>
      rw [anteHandle, anteHandle]
      cases hv : verifySig t with
      | error e => rfl
      | ok s => rw [ih { ctx with aspectContextSet := true }]

/-- Claim C7: the signature stage accepts a transaction exactly when every
message in it is an execution-layer (MsgEthereumTx) message whose sender
recovery succeeds; on acceptance the recovered sender is written to every
message's From field; on rejection the returned context's ledger is the input
ledger (no ledger mutation); and the behaviour is identical on re-validation
paths — the recheck flag is never consulted. -/
theorem sig_verification_stage
    (verifySig : Nat → Except Unit Nat) (isRecheckTx : Bool)
    (ctx : AnteCtx) (msgs : List SdkMsg) :
    (anteHandle verifySig isRecheckTx ctx msgs).isOk = msgs.all (msgAcceptable verifySig) ∧
    (∀ (ctx2 : AnteCtx) (msgs2 : List SdkMsg),
      anteHandle verifySig isRecheckTx ctx msgs = .ok (ctx2, msgs2) →
      ∀ m ∈ msgs2, ∃ t s, m = SdkMsg.eth t (some s) ∧ verifySig t = .ok s) ∧
    (∀ (e : AnteError) (ctx2 : AnteCtx),
      anteHandle verifySig isRecheckTx ctx msgs = .error (e, ctx2) →
      ctx2.ledger = ctx.ledger) ∧
    anteHandle verifySig isRecheckTx ctx msgs = anteHandle verifySig true ctx msgs :=
  ⟨anteHandle_isOk verifySig isRecheckTx ctx msgs,
   fun ctx2 msgs2 h => anteHandle_ok_from_set verifySig isRecheckTx msgs ctx ctx2 msgs2 h,
   fun e ctx2 h => anteHandle_error_ledger verifySig isRecheckTx msgs ctx e ctx2 h,
   anteHandle_recheck_independent verifySig isRecheckTx msgs ctx⟩

/-- Witness for C7: a single execution-layer message whose recovery yields
sender 9 is accepted with the From field populated. -/
theorem sig_verification_stage_witness :
    ∃ t s, SdkMsg.eth 4 (some 9) = SdkMsg.eth t (some s) ∧
      (fun _ : Nat => (Except.ok 9 : Except Unit Nat)) t = .ok s :=
  (sig_verification_stage (fun _ => .ok 9) false ⟨[(1, 2)], false⟩
      [SdkMsg.eth 4 none]).2.1 ⟨[(1, 2)], true⟩ [SdkMsg.eth 4 (some 9)] rfl
    (SdkMsg.eth 4 (some 9)) (List.mem_singleton.mpr rfl)

/-! ## Concrete inputs and outputs used by the witnesses -/

/-- A VM oracle that leaves the state untouched and uses no gas. -/
def vmW : VMOracle := ⟨fun db g => ⟨[], g, none, db⟩, fun db g => ⟨[], g, none, db⟩⟩

def ctxW : Ctx := ⟨[(1, 0)], [], 0, 0, 0, 0, 0, some ⟨100000, 0⟩⟩

def msgCallW : Msg := ⟨1, some 2, 0, 21000, 0, []⟩

def msgCreateW : Msg := ⟨1, none, 0, 53000, 0, []⟩

def cfgW : EVMConfig := ⟨⟨true, true⟩, false⟩

def txcW : TxConfig := ⟨5, 0, 0⟩

def resW : MsgEthereumTxResponse := ⟨21000, "", [], [], 5, 21000⟩

def rcptW : Receipt := ⟨1, 0, [], 21000, 21000, none, 5, 0⟩

def ctxW2 : Ctx := ⟨[(1, 0)], [], 0, 0, 1, 21000, 21000, some ⟨100000, 0⟩⟩

/-- Witness for C1 at a concrete successful value-transfer transaction. -/
theorem tx_atomic_commit_or_discard_witness :
    applyTransaction ctxW msgCallW vmW cfgW 0 txcW (.ok 21000) (fun _ => 0) true
      = .ok (resW, rcptW, ctxW2) ∧
    resW.vmError = "" ∧
    applyMessageWithConfig ctxW.ledger msgCallW vmW true cfgW 0 txcW.txHash (.ok 21000)
      = .ok (⟨21000, "", [], [], 5, 0⟩, [(1, 0)]) ∧
    ctxW2.ledger = [(1, 0)] ∧
    ctxW2.gasMeterConsumed = ctxW.transientGasUsed + resW.gasUsed :=
  ⟨rfl, rfl, rfl,
   ((tx_atomic_commit_or_discard ctxW msgCallW vmW cfgW 0 txcW (.ok 21000) (fun _ => 0) true
        resW rcptW ctxW2 rfl).1 ⟨21000, "", [], [], 5, 0⟩ [(1, 0)] rfl).1 rfl,
   (tx_atomic_commit_or_discard ctxW msgCallW vmW cfgW 0 txcW (.ok 21000) (fun _ => 0) true
      resW rcptW ctxW2 rfl).2.2⟩

/-- Witness for C2 at a concrete contract-creation message: the committed
ledger records nonce `msg.Nonce + 1 = 1` for the sender. -/
theorem creation_nonce_invariant_witness :
    msgCreateW.To = none ∧
    applyMessageWithConfig [] msgCreateW vmW true cfgW 0 5 (.ok 53000)
      = .ok (⟨53000, "", [], [], 5, 0⟩, [(1, 1)]) ∧
    StateDB.getNonce (stateAtCreate [] msgCreateW) msgCreateW.From = msgCreateW.Nonce ∧
    ledgerGet [(1, 1)] msgCreateW.From = msgCreateW.Nonce + 1 :=
  ⟨rfl, rfl,
   (creation_nonce_invariant [] msgCreateW vmW cfgW 0 5 (.ok 53000)
      ⟨53000, "", [], [], 5, 0⟩ [(1, 1)] rfl rfl).1,
   (creation_nonce_invariant [] msgCreateW vmW cfgW 0 5 (.ok 53000)
      ⟨53000, "", [], [], 5, 0⟩ [(1, 1)] rfl rfl).2.2⟩

/-- Witness for C4 at gas limit 21000, zero multiplier, actual gas 21000. -/
theorem minimum_gas_invariant_witness :
    minimumGasUsedOf 21000 0 ≤ newDec 21000 ∧
    finalGasUsed 21000 0 21000 = 21000 ∧
    applyMessageWithConfig [(1, 0)] msgCallW vmW true cfgW 0 5 (.ok 21000)
      = .ok (⟨21000, "", [], [], 5, 0⟩, [(1, 0)]) ∧
    (∃ igv, (.ok 21000 : Except Unit Nat) = .ok igv ∧
      (⟨21000, "", [], [], 5, 0⟩ : MsgEthereumTxResponse).gasUsed
        = finalGasUsed msgCallW.GasLimit 0
          (applyRefund
            (finalStateDB msgCallW (vmOutcome [(1, 0)] msgCallW vmW (msgCallW.GasLimit - igv))).refund
            msgCallW.GasLimit
            (vmOutcome [(1, 0)] msgCallW vmW (msgCallW.GasLimit - igv)).leftoverGas
            cfgW.isLondon).2) :=
  ⟨by decide, (minimum_gas_invariant 21000 0 21000).2.2.1 (by decide), rfl,
   (minimum_gas_invariant 21000 0 21000).2.2.2.2 [(1, 0)] msgCallW vmW true cfgW 5
     (.ok 21000) ⟨21000, "", [], [], 5, 0⟩ [(1, 0)] rfl⟩

/-- Witness for C6: a capped value, a monotone successive pair, and the
concrete pipeline's recorded cumulative gas. -/
theorem cumulative_gas_invariant_witness :
    cumulativeGas 5 (some ⟨10, 3⟩) ≤ 10 ∧
    3 + 5 ≤ 9 ∧
    cumulativeGas 5 (some ⟨10, 3⟩) ≤ cumulativeGas 4 (some ⟨10, 9⟩) ∧
    applyTransaction ctxW msgCallW vmW cfgW 0 txcW (.ok 21000) (fun _ => 0) true
      = .ok (resW, rcptW, ctxW2) ∧
    resW.cumulativeGasUsed = cumulativeGas resW.gasUsed ctxW.blockGasMeter :=
  ⟨(cumulative_gas_invariant 10 3 5 9 4).1, by decide,
   (cumulative_gas_invariant 10 3 5 9 4).2.1 (by decide), rfl,
   ((cumulative_gas_invariant 10 3 5 9 4).2.2 ctxW msgCallW vmW cfgW 0 txcW (.ok 21000)
      (fun _ => 0) true resW rcptW ctxW2 rfl).1⟩

/-- Witness for C9 at a concrete transaction with an empty log list: bloom
and log-size transients unchanged, tx index advanced, gas accounted. -/
theorem transient_state_frame_witness :
    applyTransaction ctxW msgCallW vmW cfgW 0 txcW (.ok 21000) (fun _ => 0) true
      = .ok (resW, rcptW, ctxW2) ∧
    resW.logs = [] ∧
    ctxW2.bloomTransient = ctxW.bloomTransient ∧
    ctxW2.txIndexTransient = txcW.txIndex + 1 ∧
    ctxW2.transientGasUsed = ctxW.transientGasUsed + resW.gasUsed :=
  ⟨rfl, rfl,
   ((transient_state_frame ctxW msgCallW vmW cfgW 0 txcW (.ok 21000) (fun _ => 0) true
      resW rcptW ctxW2 rfl).1 rfl).1,
   (transient_state_frame ctxW msgCallW vmW cfgW 0 txcW (.ok 21000) (fun _ => 0) true
      resW rcptW ctxW2 rfl).2.1,
   (transient_state_frame ctxW msgCallW vmW cfgW 0 txcW (.ok 21000) (fun _ => 0) true
      resW rcptW ctxW2 rfl).2.2.1⟩

/-- Witness for C10 at a concrete transaction with an empty log list: the
receipt's bloom is the zero bloom. -/
theorem receipt_bloom_accumulates_witness :
    applyTransaction ctxW msgCallW vmW cfgW 0 txcW (.ok 21000) (fun _ => 0) true
      = .ok (resW, rcptW, ctxW2) ∧
    resW.logs = [] ∧
    rcptW.bloom = 0 :=
  ⟨rfl, rfl,
   (receipt_bloom_accumulates ctxW msgCallW vmW cfgW 0 txcW (.ok 21000) (fun _ => 0) true
      resW rcptW ctxW2 rfl).2.2 rfl⟩

end Artela
